import Mathlib

/-!
Shallow embedding of the DropOut Java-runtime manager (src-tauri), covering
the checksum verifier, version parser, resume-failure classifier, catalog
retry loop, TTL cache read, archive extraction, and the install/resume
orchestration around the pending-download queue.

Machine integers are modelled as `Nat` reduced mod `2^32` / `2^64` where the
Rust code uses `u32` / `u64`.  Bytes are `Nat` values below 256.
-/

namespace DropOut

/-! ### Hashing (src/core/downloader.rs: compute_sha256, compute_sha1)

The Rust code delegates to the `sha2` / `sha1` crates and `hex::encode`.
The hash functions are reproduced here from FIPS 180-4 so that digests are
concrete; `hex::encode` emits lowercase hex. -/

def mask32 : Nat := 4294967296

def rotr32 (n x : Nat) : Nat :=
  ((x >>> n) ||| (x <<< (32 - n))) % mask32

def rotl32 (n x : Nat) : Nat :=
  ((x <<< n) ||| (x >>> (32 - n))) % mask32

def hexDigit (n : Nat) : Char :=
  if n < 10 then Char.ofNat (48 + n) else Char.ofNat (87 + n)

/-- Lowercase hex of one byte, as emitted by `hex::encode`. -/
def byteToHex (b : Nat) : String :=
  String.mk [hexDigit ((b / 16) % 16), hexDigit (b % 16)]

def hexEncode (bs : List Nat) : String :=
  String.join (bs.map byteToHex)

/-- Split a word (`2^32`) into 4 big-endian bytes. -/
def word32ToBytes (w : Nat) : List Nat :=
  [(w / 16777216) % 256, (w / 65536) % 256, (w / 256) % 256, w % 256]

/-- Assemble 4 big-endian bytes into one 32-bit word. -/
def bytesToWord32 (a b c d : Nat) : Nat :=
  ((a % 256) * 16777216 + (b % 256) * 65536 + (c % 256) * 256 + d % 256)

def toWords32 : List Nat → List Nat
  | a :: b :: c :: d :: rest => bytesToWord32 a b c d :: toWords32 rest
  | _ => []

/-- Split a byte list into 64-byte blocks (structural recursion on a fuel
bound so the kernel can evaluate it; `l.length` steps always suffice since
every step consumes at least one element). -/
def chunks64Aux : Nat → List Nat → List (List Nat)
  | 0, _ => []
  | _ + 1, [] => []
  | fuel + 1, l => l.take 64 :: chunks64Aux fuel (l.drop 64)

def chunks64 (l : List Nat) : List (List Nat) :=
  chunks64Aux l.length l

/-- Merkle–Damgård padding shared by SHA-1 and SHA-256: append `0x80`, zero
bytes until the length is ≡ 56 (mod 64), then the bit length over 8
big-endian bytes. -/
def padMessage (msg : List Nat) : List Nat :=
  let len := msg.length
  let bitLen := (8 * len) % 18446744073709551616
  let zeros := (64 + 56 - (len + 1) % 64) % 64
  msg ++ [128] ++ List.replicate zeros 0 ++
    [(bitLen / 72057594037927936) % 256, (bitLen / 281474976710656) % 256,
     (bitLen / 1099511627776) % 256, (bitLen / 4294967296) % 256,
     (bitLen / 16777216) % 256, (bitLen / 65536) % 256,
     (bitLen / 256) % 256, bitLen % 256]

def sha256K : List Nat :=
  [1116352408, 1899447441, 3049323471, 3921009573, 961987163,
   1508970993, 2453635748, 2870763221, 3624381080, 310598401,
   607225278, 1426881987, 1925078388, 2162078206, 2614888103,
   3248222580, 3835390401, 4022224774, 264347078, 604807628,
   770255983, 1249150122, 1555081692, 1996064986, 2554220882,
   2821834349, 2952996808, 3210313671, 3336571891, 3584528711,
   113926993, 338241895, 666307205, 773529912, 1294757372,
   1396182291, 1695183700, 1986661051, 2177026350, 2456956037,
   2730485921, 2820302411, 3259730800, 3345764771, 3516065817,
   3600352804, 4094571909, 275423344, 430227734, 506948616,
   659060556, 883997877, 958139571, 1322822218, 1537002063,
   1747873779, 1955562222, 2024104815, 2227730452, 2361852424,
   2428436474, 2756734187, 3204031479, 3329325298]

/-- Extend 16 message words to the 64-word SHA-256 schedule. -/
def sha256Schedule (w : List Nat) : List Nat :=
  (List.range 48).foldl
    (fun acc j =>
      let i := j + 16
      let x := acc.getD (i - 15) 0
      let y := acc.getD (i - 2) 0
      let s0 := (rotr32 7 x) ^^^ (rotr32 18 x) ^^^ (x >>> 3)
      let s1 := (rotr32 17 y) ^^^ (rotr32 19 y) ^^^ (y >>> 10)
      acc ++ [(acc.getD (i - 16) 0 + s0 + acc.getD (i - 7) 0 + s1) % mask32])
    w

def sha256Compress (h : List Nat) (block : List Nat) : List Nat :=
  let w := sha256Schedule (toWords32 block)
  let final := (List.range 64).foldl
    (fun st i =>
      match st with
      | [a, b, c, d, e, f, g, hh] =>
        let s1 := (rotr32 6 e) ^^^ (rotr32 11 e) ^^^ (rotr32 25 e)
        let ch := (e &&& f) ^^^ ((e ^^^ (mask32 - 1)) &&& g)
        let t1 := (hh + s1 + ch + sha256K.getD i 0 + w.getD i 0) % mask32
        let s0 := (rotr32 2 a) ^^^ (rotr32 13 a) ^^^ (rotr32 22 a)
        let mj := (a &&& b) ^^^ (a &&& c) ^^^ (b &&& c)
        let t2 := (s0 + mj) % mask32
        [(t1 + t2) % mask32, a, b, c, (d + t1) % mask32, e, f, g]
      | other => other)
    h
  (List.zip h final).map (fun p => (p.1 + p.2) % mask32)

def sha256Init : List Nat :=
  [1779033703, 3144134277, 1013904242, 2773480762,
   1359893119, 2600822924, 528734635, 1541459225]

/-- SHA-256 digest of a byte list, as 32 bytes. -/
def sha256Bytes (msg : List Nat) : List Nat :=
  let blocks := chunks64 (padMessage msg)
  let h := blocks.foldl sha256Compress sha256Init
  h.flatMap word32ToBytes

/-- `compute_sha256` (downloader.rs): lowercase hex of the SHA-256 digest. -/
def compute_sha256 (data : List Nat) : String :=
  hexEncode (sha256Bytes data)

def sha1Init : List Nat :=
  [1732584193, 4023233417, 2562383102, 271733878, 3285377520]

/-- Extend 16 message words to the 80-word SHA-1 schedule. -/
def sha1Schedule (w : List Nat) : List Nat :=
  (List.range 64).foldl
    (fun acc j =>
      let i := j + 16
      let x := (acc.getD (i - 3) 0) ^^^ (acc.getD (i - 8) 0) ^^^
               (acc.getD (i - 14) 0) ^^^ (acc.getD (i - 16) 0)
      acc ++ [rotl32 1 x])
    w

def sha1Round (st : List Nat) (i wi : Nat) : List Nat :=
  match st with
  | [a, b, c, d, e] =>
    let f :=
      if i < 20 then (b &&& c) ||| ((b ^^^ (mask32 - 1)) &&& d)
      else if i < 40 then b ^^^ c ^^^ d
      else if i < 60 then (b &&& c) ||| (b &&& d) ||| (c &&& d)
      else b ^^^ c ^^^ d
    let k :=
      if i < 20 then 1518500249
      else if i < 40 then 1859775393
      else if i < 60 then 2400959708
      else 3395469782
    let temp := (rotl32 5 a + f + e + k + wi) % mask32
    [temp, a, rotl32 30 b, c, d]
  | other => other

def sha1Compress (h : List Nat) (block : List Nat) : List Nat :=
  let w := sha1Schedule (toWords32 block)
  let final := (List.range 80).foldl (fun st i => sha1Round st i (w.getD i 0)) h
  (List.zip h final).map (fun p => (p.1 + p.2) % mask32)

/-- SHA-1 digest of a byte list, as 20 bytes. -/
def sha1Bytes (msg : List Nat) : List Nat :=
  let blocks := chunks64 (padMessage msg)
  let h := blocks.foldl sha1Compress sha1Init
  h.flatMap word32ToBytes

/-- `compute_sha1` (downloader.rs): lowercase hex of the SHA-1 digest. -/
def compute_sha1 (data : List Nat) : String :=
  hexEncode (sha1Bytes data)

/-- `verify_checksum` (downloader.rs): prefer SHA-256, fall back to SHA-1,
default to `true` when no checksum is supplied.  Comparison is plain string
equality. -/
def verify_checksum (data : List Nat) (sha256 : Option String)
    (sha1 : Option String) : Bool :=
  match sha256 with
  | some expected => compute_sha256 data == expected
  | none =>
    match sha1 with
    | some expected => compute_sha1 data == expected
    | none => true

/-! ### String helpers (ASCII case mapping and substring search, mirroring
Rust's `str::to_ascii_lowercase` and `str::contains`) -/

def asciiLowerChar (c : Char) : Char :=
  if 'A' ≤ c ∧ c ≤ 'Z' then Char.ofNat (c.toNat + 32) else c

def asciiUpperChar (c : Char) : Char :=
  if 'a' ≤ c ∧ c ≤ 'z' then Char.ofNat (c.toNat - 32) else c

def asciiLower (s : String) : String := String.mk (s.data.map asciiLowerChar)

def asciiUpper (s : String) : String := String.mk (s.data.map asciiUpperChar)

def isPrefixList : List Char → List Char → Bool
  | [], _ => true
  | _ :: _, [] => false
  | a :: as, b :: bs => a == b && isPrefixList as bs

def substrAux (pat : List Char) : List Char → Bool
  | [] => isPrefixList pat []
  | c :: t => isPrefixList pat (c :: t) || substrAux pat t

/-- Rust `str::contains(pat)`: `pat` occurs as a contiguous substring. -/
def strContains (s pat : String) : Bool := substrAux pat.data s.data

/-- Two strings are equal up to ASCII letter case. -/
def caseEquiv (a b : String) : Bool := asciiLower a == asciiLower b

/-! ### Version parsing (src/core/java.rs: parse_java_version) -/

/-- Rust `str::split(sep)` over a char list: `""` yields `[""]`, separators
at the ends yield empty fields. -/
def splitOnChar (sep : Char) : List Char → List (List Char)
  | [] => [[]]
  | c :: t =>
    let r := splitOnChar sep t
    if c == sep then [] :: r
    else
      match r with
      | [] => [[c]]
      | h :: t2 => (c :: h) :: t2

def digitsToNat (l : List Char) : Nat :=
  l.foldl (fun n c => n * 10 + (c.toNat - 48)) 0

/-- Rust `str::parse::<u32>()`: an optional leading `+`, then at least one
decimal digit, rejecting values above `u32::MAX`. -/
def parseU32 (s : String) : Option Nat :=
  let digits :=
    match s.data with
    | '+' :: t => t
    | l => l
  if digits.isEmpty then none
  else if digits.all Char.isDigit then
    if digitsToNat digits < 4294967296 then some (digitsToNat digits) else none
  else none

/-- `parse_java_version` (java.rs): split on `.`; a leading `"1"` takes the
second token as major, otherwise the first token is parsed, 0 on failure. -/
def parse_java_version (version : String) : Nat :=
  let parts := (splitOnChar '.' version.data).map String.mk
  match parts.head? with
  | some first =>
    if first == "1" then (((parts.get? 1).bind parseU32).getD 0)
    else (parseU32 first).getD 0
  | none => 0

/-! ### Resume-failure classifier (src/core/java/error.rs) -/

inductive ResumeJavaDownloadFailureReason where
  | Network
  | Cancelled
  | ChecksumMismatch
  | ExtractionFailed
  | VerificationFailed
  | Filesystem
  | InvalidArchive
  | Unknown
deriving DecidableEq, Repr

namespace ResumeJavaDownloadFailureReason

/-- `from_error_message` (error.rs): keyword classification over the
lowercased message, first match wins. -/
def from_error_message (error : String) : ResumeJavaDownloadFailureReason :=
  let lower := asciiLower error
  if strContains lower "cancel" then .Cancelled
  else if strContains lower "checksum" then .ChecksumMismatch
  else if strContains lower "extract" || strContains lower "unsupported archive" then
    .ExtractionFailed
  else if strContains lower "verify" || strContains lower "java executable not found" then
    .VerificationFailed
  else if strContains lower "request" || strContains lower "network" ||
      strContains lower "timed out" || strContains lower "http status" then
    .Network
  else if strContains lower "archive" || strContains lower "top-level directory" then
    .InvalidArchive
  else if strContains lower "create" || strContains lower "write" ||
      strContains lower "read" || strContains lower "rename" ||
      strContains lower "permission" || strContains lower "directory" ||
      strContains lower "path" then
    .Filesystem
  else .Unknown

end ResumeJavaDownloadFailureReason

/-- The spec's classifier table (§4.L): trigger-substring groups in priority
order, paired with the reason each group maps to. -/
def classifierTable :
    List (List String × ResumeJavaDownloadFailureReason) :=
  [(["cancel"], .Cancelled),
   (["checksum"], .ChecksumMismatch),
   (["extract", "unsupported archive"], .ExtractionFailed),
   (["verify", "java executable not found"], .VerificationFailed),
   (["request", "network", "timed out", "http status"], .Network),
   (["archive", "top-level directory"], .InvalidArchive),
   (["create", "write", "read", "rename", "permission", "directory", "path"],
    .Filesystem)]

/-- First-match-wins evaluation of the spec's table against the lowercased
input, `Unknown` when no group matches. -/
def classifySpec (error : String) : ResumeJavaDownloadFailureReason :=
  let lower := asciiLower error
  (classifierTable.findSome? fun g =>
    if g.1.any (fun k => strContains lower k) then some g.2 else none).getD .Unknown

/-! ### Error taxonomy (src/core/java/error.rs: JavaError) -/

inductive JavaError where
  | NotFound
  | InvalidVersion (msg : String)
  | VerificationFailed (msg : String)
  | NetworkError (msg : String)
  | IoError (msg : String)
  | Timeout (msg : String)
  | SerializationError (msg : String)
  | InvalidConfig (msg : String)
  | DownloadFailed (msg : String)
  | ExtractionFailed (msg : String)
  | ChecksumMismatch (msg : String)
  | Other (msg : String)
deriving DecidableEq, Repr

/-! ### Catalog fetch with retry (src/core/java/providers/adoptium.rs)

One HTTP attempt either yields a response (with a success flag, the status
text, and the result of parsing the body as JSON — consulted only on
success) or a transport error.  The loop is driven by an oracle giving the
outcome of each attempt; the model returns the result together with the
number of requests issued and the list of back-off sleeps (in ms). -/

inductive HttpOutcome (α : Type) where
  | response (success : Bool) (statusText : String) (body : Except String α)
  | transportError (err : String)

/-- An attempt that the retry loop treats as retryable: non-success HTTP
status or a transport error. -/
def HttpOutcome.retryable : HttpOutcome α → Bool
  | .response success _ _ => !success
  | .transportError _ => true

def CATALOG_REQUEST_RETRIES : Nat := 3
def CATALOG_RETRY_BASE_DELAY_MS : Nat := 300

structure AvailableReleases where
  available_releases : List Nat
  available_lts_releases : List Nat
  most_recent_lts : Option Nat
  most_recent_feature_release : Option Nat
deriving DecidableEq, Repr

/-- Loop body of `fetch_available_releases_with_retry`; fuel starts at
`CATALOG_REQUEST_RETRIES + 1` so the `for attempt in 0..=RETRIES` range is
walked exactly. -/
def fetchAvailableReleasesGo (outcomes : Nat → HttpOutcome AvailableReleases) :
    Nat → Nat → (Except JavaError AvailableReleases × Nat × List Nat)
  | _, 0 =>
    (.error (.NetworkError "Failed to fetch available releases after retries"), 0, [])
  | attempt, fuel + 1 =>
    match outcomes attempt with
    | .response true _ (.ok ar) => (.ok ar, 1, [])
    | .response true _ (.error e) =>
      (.error (.SerializationError ("Failed to parse available releases: " ++ e)), 1, [])
    | .response false statusText _ =>
      if attempt == CATALOG_REQUEST_RETRIES then
        (.error (.NetworkError
          ("Failed to fetch available releases after retries, status: " ++ statusText)), 1, [])
      else
        let r := fetchAvailableReleasesGo outcomes (attempt + 1) fuel
        (r.1, r.2.1 + 1, (CATALOG_RETRY_BASE_DELAY_MS * 2 ^ attempt) :: r.2.2)
    | .transportError e =>
      if attempt == CATALOG_REQUEST_RETRIES then
        (.error (.NetworkError ("Failed to fetch available releases: " ++ e)), 1, [])
      else
        let r := fetchAvailableReleasesGo outcomes (attempt + 1) fuel
        (r.1, r.2.1 + 1, (CATALOG_RETRY_BASE_DELAY_MS * 2 ^ attempt) :: r.2.2)

/-- `fetch_available_releases_with_retry` (adoptium.rs). -/
def fetch_available_releases_with_retry
    (outcomes : Nat → HttpOutcome AvailableReleases) :
    Except JavaError AvailableReleases × Nat × List Nat :=
  fetchAvailableReleasesGo outcomes 0 (CATALOG_REQUEST_RETRIES + 1)

/-- The `NetworkError` message carrying the cause of the final (fourth)
failed attempt. -/
def releasesLastCauseMsg : HttpOutcome AvailableReleases → String
  | .response _ statusText _ =>
    "Failed to fetch available releases after retries, status: " ++ statusText
  | .transportError e => "Failed to fetch available releases: " ++ e

/-- Loop body of `fetch_adoptium_assets_with_retry`, threading `last_error`;
this helper returns `Err(last_error)` (a plain string) after exhaustion. -/
def fetchAssetsGo (outcomes : Nat → HttpOutcome α) :
    String → Nat → Nat → (Except String α × Nat × List Nat)
  | lastError, _, 0 => (.error lastError, 0, [])
  | _, attempt, fuel + 1 =>
    match outcomes attempt with
    | .response true _ (.ok v) => (.ok v, 1, [])
    | .response true _ (.error e) =>
      (.error ("Failed to parse assets response: " ++ e), 1, [])
    | .response false statusText _ =>
      let le := "HTTP status " ++ statusText
      if attempt < CATALOG_REQUEST_RETRIES then
        let r := fetchAssetsGo outcomes le (attempt + 1) fuel
        (r.1, r.2.1 + 1, (CATALOG_RETRY_BASE_DELAY_MS * 2 ^ attempt) :: r.2.2)
      else (.error le, 1, [])
    | .transportError e =>
      if attempt < CATALOG_REQUEST_RETRIES then
        let r := fetchAssetsGo outcomes e (attempt + 1) fuel
        (r.1, r.2.1 + 1, (CATALOG_RETRY_BASE_DELAY_MS * 2 ^ attempt) :: r.2.2)
      else (.error e, 1, [])

/-- `fetch_adoptium_assets_with_retry` (adoptium.rs), polymorphic in the
parsed asset list. -/
def fetch_adoptium_assets_with_retry (outcomes : Nat → HttpOutcome α) :
    Except String α × Nat × List Nat :=
  fetchAssetsGo outcomes "unknown error" 0 (CATALOG_REQUEST_RETRIES + 1)

/-- The `last_error` string recorded for the final failed assets attempt. -/
def assetsLastCauseMsg : HttpOutcome α → String
  | .response _ statusText _ => "HTTP status " ++ statusText
  | .transportError e => e

/-! ### Data model (src/core/java/mod.rs) -/

inductive ImageType where
  | Jre
  | Jdk
deriving DecidableEq, Repr

/-- `Display` for `ImageType` (mod.rs). -/
def ImageType.toStr : ImageType → String
  | .Jre => "jre"
  | .Jdk => "jdk"

/-- `ImageType::parse` (mod.rs): trim, ASCII-lowercase, then match.  Rust
trims Unicode whitespace; ASCII whitespace is modelled. -/
def ImageType.parse (value : String) : Option ImageType :=
  let t := asciiLower (String.mk
    ((value.data.dropWhile Char.isWhitespace).reverse.dropWhile Char.isWhitespace).reverse)
  if t == "jre" then some .Jre
  else if t == "jdk" then some .Jdk
  else none

structure JavaInstallation where
  path : String
  version : String
  arch : String
  vendor : String
  source : String
  is_64bit : Bool
deriving DecidableEq, Repr

structure JavaReleaseInfo where
  major_version : Nat
  image_type : ImageType
  version : String
  release_name : String
  release_date : Option String
  file_size : Nat
  checksum : Option String
  download_url : String
  is_lts : Bool
  is_available : Bool
  architecture : String
deriving DecidableEq, Repr

structure JavaCatalog where
  releases : List JavaReleaseInfo
  available_major_versions : List Nat
  lts_versions : List Nat
  cached_at : Nat
deriving DecidableEq, Repr

structure JavaDownloadInfo where
  version : String
  release_name : String
  download_url : String
  file_name : String
  file_size : Nat
  checksum : Option String
  image_type : ImageType
deriving DecidableEq, Repr

structure PendingJavaDownload where
  major_version : Nat
  image_type : String
  download_url : String
  file_name : String
  file_size : Nat
  checksum : Option String
  install_path : String
  created_at : Nat
deriving DecidableEq, Repr

/-! ### TTL cache read (src/core/java/cache.rs: load_cached_catalog_result)

`cached_at` and `now` are `u64`; the staleness test `now - cached_at` uses
wrapping `u64` arithmetic (release-mode Rust semantics). -/

def CACHE_DURATION_SECS : Nat := 86400

def mask64 : Nat := 18446744073709551616

/-- Wrapping `u64` subtraction for operands below `2^64`. -/
def u64sub (a b : Nat) : Nat := (a + mask64 - b % mask64) % mask64

/-- The observable states of the cache file: absent, unreadable, or a byte
content whose JSON parse either fails or yields a catalog. -/
inductive CacheFile where
  | missing
  | readError (e : String)
  | content (parse : Except String JavaCatalog)

/-- `load_cached_catalog_result` (cache.rs): `None` when the file is absent
or the catalog is stale; I/O and parse errors surface as errors. -/
def load_cached_catalog_result (file : CacheFile) (now : Nat) :
    Except JavaError (Option JavaCatalog) :=
  match file with
  | .missing => .ok none
  | .readError e => .error (.IoError e)
  | .content (.error e) => .error (.SerializationError e)
  | .content (.ok catalog) =>
    if u64sub now catalog.cached_at < CACHE_DURATION_SECS then .ok (some catalog)
    else .ok none

/-! ### Archive extraction (src/utils/zip.rs)

Entry paths are modelled as `std::path` component lists.  Extraction is
modelled as a pure fold that records, for each entry that the code would
write, the path handed to the filesystem (relative to the extraction root);
filesystem errors of the write itself are not modelled. -/

inductive PathComponent where
  | normal (s : String)
  | curDir
  | parentDir
  | rootDir
  | prefixed (s : String)
deriving DecidableEq, Repr

def renderComponent : PathComponent → String
  | .normal s => s
  | .curDir => "."
  | .parentDir => ".."
  | .rootDir => ""
  | .prefixed s => s

def renderPath (l : List PathComponent) : String :=
  String.intercalate "/" (l.map renderComponent)

/-- `sanitize_relative_path` (zip.rs): keep `Normal` components, drop
`CurDir`, reject `ParentDir` and absolute roots. -/
def sanitize_relative_path (entryPath : List PathComponent) :
    Except String (List String) :=
  go entryPath []
where
  go : List PathComponent → List String → Except String (List String)
  | [], acc => .ok acc.reverse
  | .normal p :: rest, acc => go rest (p :: acc)
  | .curDir :: rest, acc => go rest acc
  | .parentDir :: _, _ =>
    .error ("Unsafe archive entry path detected (parent traversal): " ++
      renderPath entryPath)
  | .rootDir :: _, _ =>
    .error ("Unsafe archive entry path detected (absolute path): " ++
      renderPath entryPath)
  | .prefixed _ :: _, _ =>
    .error ("Unsafe archive entry path detected (absolute path): " ++
      renderPath entryPath)

structure TarEntry where
  /-- outcome of reading the entry and its header path from the stream -/
  readError : Option String
  path : List PathComponent
  isDir : Bool
deriving DecidableEq, Repr

/-- Loop of `extract_tar_gz`: threads the top-level-directory tracker and
the list of paths written under the extraction root (in reverse). -/
def extractTarGo : List TarEntry → Option String → List (List String) →
    (Except String String × List (List String))
  | [], top, created =>
    (match top with
     | some d => .ok d
     | none => .error "Archive appears to be empty", created.reverse)
  | e :: rest, top, created =>
    match e.readError with
    | some err => (.error ("Failed to read tar entry: " ++ err), created.reverse)
    | none =>
      match sanitize_relative_path e.path with
      | .error msg => (.error msg, created.reverse)
      | .ok safePath =>
        if safePath.isEmpty then extractTarGo rest top created
        else
          let top2 :=
            match top with
            | some d => some d
            | none =>
              match safePath.head? with
              | some c => if c ≠ "" ∧ c ≠ "." then some c else none
              | none => none
          extractTarGo rest top2 (safePath :: created)

/-- `extract_tar_gz` (zip.rs): returns the recorded top-level directory name
(or fails when none was seen), together with the written paths. -/
def extract_tar_gz (entries : List TarEntry) :
    Except String String × List (List String) :=
  extractTarGo entries none []

structure ZipEntry where
  /-- outcome of `archive.by_index` for this entry -/
  readError : Option String
  /-- `file.name()` -/
  rawName : String
  /-- components of the name, per `std::path` -/
  path : List PathComponent
deriving DecidableEq, Repr

/-- Depth check of `zip`'s `enclosed_name`: absolute roots are rejected and
`..` may never pop past the start. -/
def enclosedDepthOk : List PathComponent → Nat → Bool
  | [], _ => true
  | .prefixed _ :: _, _ => false
  | .rootDir :: _, _ => false
  | .parentDir :: rest, d =>
    match d with
    | 0 => false
    | d + 1 => enclosedDepthOk rest d
  | .curDir :: rest, d => enclosedDepthOk rest d
  | .normal _ :: rest, d => enclosedDepthOk rest (d + 1)

/-- `ZipFile::enclosed_name` (zip crate): `None` when the name embeds a NUL
or the components escape the root. -/
def enclosed_name (rawName : String) (comps : List PathComponent) :
    Option (List PathComponent) :=
  if rawName.data.contains (Char.ofNat 0) then none
  else if enclosedDepthOk comps 0 then some comps
  else none

/-- Lexical resolution of a component list against the extraction root:
`none` when the path escapes the root. -/
def resolveComponents : List PathComponent → List String → Option (List String)
  | [], acc => some acc.reverse
  | .normal s :: rest, acc => resolveComponents rest (s :: acc)
  | .curDir :: rest, acc => resolveComponents rest acc
  | .parentDir :: rest, acc =>
    match acc with
    | [] => none
    | _ :: t => resolveComponents rest t
  | .rootDir :: _, _ => none
  | .prefixed _ :: _, _ => none

/-- Loop of `extract_zip`: entries without an enclosed name and `META-INF`
paths are skipped (`continue`); the rest are written below the root. -/
def extractZipGo (extractTo : String) : List ZipEntry → List (List PathComponent) →
    (Except String Unit × List (List PathComponent))
  | [], created => (.ok (), created.reverse)
  | e :: rest, created =>
    match e.readError with
    | some err => (.error ("Failed to read zip entry: " ++ err), created.reverse)
    | none =>
      match enclosed_name e.rawName e.path with
      | none => extractZipGo extractTo rest created
      | some p =>
        if strContains (extractTo ++ "/" ++ renderPath p) "META-INF" then
          extractZipGo extractTo rest created
        else extractZipGo extractTo rest (p :: created)

/-- `extract_zip` (zip.rs). -/
def extract_zip (extractTo : String) (entries : List ZipEntry) :
    Except String Unit × List (List PathComponent) :=
  extractZipGo extractTo entries []

/-- An entry path the spec's path-safety contract rejects: a parent-directory
component or an absolute root among its components. -/
def unsafeComponents (l : List PathComponent) : Bool :=
  l.any fun c =>
    match c with
    | .parentDir => true
    | .rootDir => true
    | .prefixed _ => true
    | _ => false

def exceptIsOk : Except ε α → Bool
  | .ok _ => true
  | .error _ => false

/-- An entry the tar loop can process without failing: its header reads and
its path sanitizes. -/
def tarEntryOkB (e : TarEntry) : Bool :=
  e.readError.isNone && exceptIsOk (sanitize_relative_path e.path)

/-- `std::path` never produces an empty or `"."` `Normal` component; entry
paths are assumed well-formed in that sense. -/
def normalOkB (c : PathComponent) : Bool :=
  match c with
  | .normal s => !(s == "") && !(s == ".")
  | _ => true

/-- The `Normal` component values of a path, in order — what sanitization
returns on success. -/
def filterNormals : List PathComponent → List String
  | [] => []
  | .normal s :: rest => s :: filterNormals rest
  | _ :: rest => filterNormals rest

/-- First path component of the first entry whose sanitized path is
non-empty — the spec's description of the returned top-level directory. -/
def firstTopComponent (entries : List TarEntry) : Option String :=
  entries.findSome? fun e =>
    match sanitize_relative_path e.path with
    | .ok (c :: _) => some c
    | _ => none

/-! ### Pending-download queue

The `DownloadQueue` type lives in a part of `core/downloader.rs` that only
its callers reach here; its operations are modelled from the spec. -/

/-- Modelled from the spec: `DownloadQueue::add` is missing from the source
tree; §4.I specifies add as replace-on-key where the key is
`(major, image_type)`. -/
def queueAdd (q : List PendingJavaDownload) (e : PendingJavaDownload) :
    List PendingJavaDownload :=
  q.filter (fun x => !(x.major_version == e.major_version &&
    x.image_type == e.image_type)) ++ [e]

/-- Modelled from the spec: `DownloadQueue::remove(major, image_type)`
deletes the entry with that key (§4.I). -/
def queueRemove (q : List PendingJavaDownload) (major : Nat)
    (imageType : String) : List PendingJavaDownload :=
  q.filter (fun x => !(x.major_version == major && x.image_type == imageType))

def queueContains (q : List PendingJavaDownload) (major : Nat)
    (imageType : String) : Bool :=
  q.any (fun x => x.major_version == major && x.image_type == imageType)

def strEndsWith (s suffix : String) : Bool :=
  isPrefixList suffix.data.reverse s.data.reverse

/-! ### Install orchestrator
(src/core/java/install.rs: download_and_install_java_with_provider)

Every effectful step is driven by an oracle of outcomes; the function
returns the call's result together with the persisted queue contents (which
change only at the two `queue.save` sites).  `download_with_resume` and
`check_java_installation` are outside the given tree, so their outcomes are
oracle fields. -/

structure InstallEnv where
  fetchRelease : Except String JavaDownloadInfo
  installBase : String
  createInstallBase : Except String Unit
  initialQueue : List PendingJavaDownload
  saveAfterAdd : Except String Unit
  saveAfterRemove : Except String Unit
  archiveExists : Bool
  readArchive : Except String (List Nat)
  downloadWithResume : Except String Unit
  versionDirExists : Bool
  removeVersionDir : Except String Unit
  createVersionDir : Except String Unit
  extractTarGzR : Except String String
  extractZipR : Except String Unit
  findTopLevelDirR : Except String String
  javaBinExists : Bool
  javaBinPath : String
  canonicalizeJavaBin : Except String String
  checkJava : Option JavaInstallation
  now : Nat

/-- The `PendingJavaDownload` registered at the start of the install call
(install.rs, the `queue.add` argument). -/
def mkPendingEntry (env : InstallEnv) (major : Nat) (imageType : ImageType)
    (info : JavaDownloadInfo) : PendingJavaDownload :=
  { major_version := major
    image_type := imageType.toStr
    download_url := info.download_url
    file_name := info.file_name
    file_size := info.file_size
    checksum := info.checksum
    install_path := env.installBase
    created_at := env.now }

/-- The tail of the install call after the pending entry has been persisted
(install.rs, lines after the first `queue.save`); every failure exit leaves
the persisted queue at `q1`. -/
def installRest (env : InstallEnv) (major : Nat) (imageType : ImageType)
    (info : JavaDownloadInfo) (q1 : List PendingJavaDownload) :
    Except String JavaInstallation × List PendingJavaDownload :=
        match
          ((if env.archiveExists then
            match info.checksum with
            | some expected =>
              match env.readArchive with
              | .error e => .error ("Failed to read downloaded file: " ++ e)
              | .ok data => .ok (!(verify_checksum data (some expected) none))
            | none => .ok false
          else .ok true) : Except String Bool) with
        | .error e => (.error e, q1)
        | .ok nd =>
          match (if nd then env.downloadWithResume else .ok ()) with
          | .error e => (.error e, q1)
          | .ok _ =>
            match
              ((if env.versionDirExists then
                match env.removeVersionDir with
                | .error e => .error ("Failed to remove old version directory: " ++ e)
                | .ok _ => Except.ok ()
              else .ok ()) : Except String Unit) with
            | .error e => (.error e, q1)
            | .ok _ =>
              match env.createVersionDir with
              | .error e => (.error ("Failed to create version directory: " ++ e), q1)
              | .ok _ =>
                match
                  ((if strEndsWith info.file_name ".tar.gz" ||
                      strEndsWith info.file_name ".tgz" then
                    env.extractTarGzR
                  else if strEndsWith info.file_name ".zip" then
                    match env.extractZipR with
                    | .error e => .error e
                    | .ok _ => env.findTopLevelDirR
                  else .error ("Unsupported archive format: " ++ info.file_name)) :
                    Except String String) with
                | .error e => (.error e, q1)
                | .ok _ =>
                  if !env.javaBinExists then
                    (.error ("Installation completed but Java executable not found: " ++
                      env.javaBinPath), q1)
                  else
                    match env.canonicalizeJavaBin with
                    | .error e => (.error e, q1)
                    | .ok _ =>
                      match env.checkJava with
                      | none => (.error "Failed to verify Java installation", q1)
                      | some inst =>
                        match env.saveAfterRemove with
                        | .error e => (.error e, q1)
                        | .ok _ => (.ok inst, queueRemove q1 major imageType.toStr)

/-- `download_and_install_java_with_provider` (install.rs): result of the
call and the persisted pending queue afterwards. -/
def download_and_install (env : InstallEnv) (major : Nat)
    (imageType : ImageType) :
    Except String JavaInstallation × List PendingJavaDownload :=
  match env.fetchRelease with
  | .error e => (.error e, env.initialQueue)
  | .ok info =>
    match env.createInstallBase with
    | .error e =>
      (.error ("Failed to create installation directory: " ++ e), env.initialQueue)
    | .ok _ =>
      let entry := mkPendingEntry env major imageType info
      let q1 := queueAdd env.initialQueue entry
      match env.saveAfterAdd with
      | .error e => (.error e, env.initialQueue)
      | .ok _ => installRest env major imageType info q1

/-! ### Resume (src/core/java/mod.rs: resume_pending_downloads_with) -/

structure ResumeJavaDownloadFailure where
  major_version : Nat
  image_type : String
  install_path : String
  reason : ResumeJavaDownloadFailureReason
  error : String
deriving DecidableEq, Repr

structure ResumeJavaDownloadsResult where
  successful_installations : List JavaInstallation
  failed_downloads : List ResumeJavaDownloadFailure
  total_pending : Nat
deriving DecidableEq, Repr

structure ResumeEnv where
  /-- Modelled from the spec: `DownloadQueue::list_pending` is missing from
  the source tree; §4.I specifies it as listing the persisted entries. -/
  pending : List PendingJavaDownload
  /-- outcome of `download_and_install_java_with_provider` per call -/
  install : Nat → ImageType → String → Except String JavaInstallation

def resumeGo (env : ResumeEnv) : List PendingJavaDownload →
    List JavaInstallation → List ResumeJavaDownloadFailure →
    List (Nat × ImageType × String) →
    (List JavaInstallation × List ResumeJavaDownloadFailure ×
      List (Nat × ImageType × String))
  | [], installed, failed, calls => (installed.reverse, failed.reverse, calls.reverse)
  | p :: rest, installed, failed, calls =>
    let it := (ImageType.parse p.image_type).getD .Jre
    let call := (p.major_version, it, p.install_path)
    match env.install p.major_version it p.install_path with
    | .ok inst => resumeGo env rest (inst :: installed) failed (call :: calls)
    | .error e =>
      resumeGo env rest installed
        ({ major_version := p.major_version
           image_type := p.image_type
           install_path := p.install_path
           reason := ResumeJavaDownloadFailureReason.from_error_message e
           error := e } :: failed)
        (call :: calls)

/-- `resume_pending_downloads_with` (mod.rs): processes every pending entry,
also returning the trace of `download_and_install` invocations. -/
def resume_pending_downloads_with (env : ResumeEnv) :
    ResumeJavaDownloadsResult × List (Nat × ImageType × String) :=
  let r := resumeGo env env.pending [] [] []
  ({ successful_installations := r.1
     failed_downloads := r.2.1
     total_pending := env.pending.length }, r.2.2)

end DropOut

/-! ## Theorems -/

namespace DropOut
set_option maxRecDepth 10000

/-- C2: `verify_checksum` treats a supplied SHA-256 as authoritative (SHA-1
ignored), falls back to SHA-1, and returns `true` when no checksum is
supplied; comparison is string equality with the lowercase hex digest. -/
theorem c2_verify_checksum_policy (data : List Nat) (s256 s1only : String)
    (s1 : Option String) :
    (verify_checksum data (some s256) s1 = true ↔ s256 = compute_sha256 data) ∧
    (verify_checksum data none (some s1only) = true ↔ s1only = compute_sha1 data) ∧
    verify_checksum data none none = true := by
  refine ⟨?_, ?_, rfl⟩
  · show (compute_sha256 data == s256) = true ↔ s256 = compute_sha256 data
    rw [beq_iff_eq]
    exact eq_comm
  · show (compute_sha1 data == s1only) = true ↔ s1only = compute_sha1 data
    rw [beq_iff_eq]
    exact eq_comm

/-- C3 counterexample: the uppercase SHA-256 digest of the empty buffer
differs from the computed digest only in letter case, yet `verify_checksum`
returns `false` — the comparison is not case-insensitive. -/
theorem c3_counterexample :
    caseEquiv "E3B0C44298FC1C149AFBF4C8996FB92427AE41E4649B934CA495991B7852B855"
      (compute_sha256 []) = true ∧
    "E3B0C44298FC1C149AFBF4C8996FB92427AE41E4649B934CA495991B7852B855" ≠
      compute_sha256 [] ∧
    verify_checksum []
      (some "E3B0C44298FC1C149AFBF4C8996FB92427AE41E4649B934CA495991B7852B855")
      none = false :=
  ⟨by decide, by decide, by decide⟩

/-- C3 amended: checksum comparison is case-sensitive string equality; an
expected hex string that differs from the computed lowercase digest (even
only in letter case) makes `verify_checksum` return `false`. -/
theorem c3_amended (data : List Nat) (expected : String)
    (hcase : caseEquiv expected (compute_sha256 data) = true)
    (hne : expected ≠ compute_sha256 data) :
    verify_checksum data (some expected) none = false := by
  simp only [verify_checksum, beq_eq_false_iff_ne, ne_eq]
  exact fun h => hne h.symm

theorem c3_amended_witness :
    verify_checksum []
      (some "E3B0C44298FC1C149AFBF4C8996FB92427AE41E4649B934CA495991B7852B855")
      none = false :=
  c3_amended []
    "E3B0C44298FC1C149AFBF4C8996FB92427AE41E4649B934CA495991B7852B855"
    (by decide) (by decide)

/-- C4 counterexample: `parse_java_version "11-ea"` is `0`, not `11` — the
parser splits only on `.` and `"11-ea"` fails the `u32` parse. -/
theorem c4_counterexample :
    parse_java_version "11-ea" = 0 ∧ parse_java_version "11-ea" ≠ 11 := by
  constructor <;> decide

/-- C4 amended: `"1.8.0_301"` → 8, `"17.0.1"` → 17, `"21"` → 21, while
`"11-ea"` and `""` → 0; in general any version whose first dot-separated
token is neither `"1"` nor a plain `u32` numeral parses to 0. -/
theorem c4_amended :
    parse_java_version "1.8.0_301" = 8 ∧ parse_java_version "17.0.1" = 17 ∧
    parse_java_version "21" = 21 ∧ parse_java_version "11-ea" = 0 ∧
    parse_java_version "" = 0 ∧
    (∀ v first, ((splitOnChar '.' v.data).map String.mk).head? = some first →
      first ≠ "1" → parseU32 first = none → parse_java_version v = 0) := by
  refine ⟨by decide, by decide, by decide, by decide, by decide, ?_⟩
  intro v first h1 h2 h3
  simp [parse_java_version, h1, h2, h3]

theorem c4_amended_witness : parse_java_version "zz" = 0 :=
  c4_amended.2.2.2.2.2 "zz" "zz" (by decide) (by decide) (by decide)

/-- C6: `from_error_message` equals first-match-wins evaluation of the
priority table cancel > checksum > extract > verify > network > archive >
filesystem with `Unknown` as default, and the five concrete examples
classify as claimed. -/
theorem c6_classifier :
    (∀ s, ResumeJavaDownloadFailureReason.from_error_message s = classifySpec s) ∧
    ResumeJavaDownloadFailureReason.from_error_message "Download cancelled by user" =
      .Cancelled ∧
    ResumeJavaDownloadFailureReason.from_error_message "request cancelled due to timeout" =
      .Cancelled ∧
    ResumeJavaDownloadFailureReason.from_error_message
      "failed to read file: checksum mismatch" = .ChecksumMismatch ∧
    ResumeJavaDownloadFailureReason.from_error_message
      "Top-level directory not found in archive" = .InvalidArchive ∧
    ResumeJavaDownloadFailureReason.from_error_message "completely unknown issue" =
      .Unknown := by
  refine ⟨?_, by decide, by decide, by decide, by decide, by decide⟩
  intro s
  simp only [ResumeJavaDownloadFailureReason.from_error_message, classifySpec,
    classifierTable, List.findSome?, List.any_cons, List.any_nil, Bool.or_false,
    Bool.or_assoc]
  split_ifs <;> rfl

end DropOut
namespace DropOut

/-- A retryable outcome is a non-success response or a transport error. -/
theorem retryable_cases (o : HttpOutcome α) (h : o.retryable = true) :
    (∃ st b, o = .response false st b) ∨ ∃ e, o = .transportError e := by
  cases o with
  | response s st b =>
    cases s with
    | false => exact Or.inl ⟨st, b, rfl⟩
    | true => simp [HttpOutcome.retryable] at h
  | transportError e => exact Or.inr ⟨e, rfl⟩

/-- C5: both catalog fetch helpers make 4 total attempts when every attempt
fails retryably, sleeping 300·2^attempt ms between attempts and returning
the last cause (a `NetworkError` for the releases fetch); a JSON parse
error of a 200-OK first response surfaces immediately after exactly one
request (`SerializationError` for the releases fetch). -/
theorem c5_retry_policy (outR : Nat → HttpOutcome AvailableReleases)
    {α : Type} (outA : Nat → HttpOutcome α) :
    ((∀ i, i ≤ CATALOG_REQUEST_RETRIES → (outR i).retryable = true) →
      fetch_available_releases_with_retry outR =
        (.error (.NetworkError (releasesLastCauseMsg (outR 3))), 4, [300, 600, 1200])) ∧
    (∀ st e, outR 0 = .response true st (.error e) →
      fetch_available_releases_with_retry outR =
        (.error (.SerializationError ("Failed to parse available releases: " ++ e)), 1, [])) ∧
    ((∀ i, i ≤ CATALOG_REQUEST_RETRIES → (outA i).retryable = true) →
      fetch_adoptium_assets_with_retry outA =
        (.error (assetsLastCauseMsg (outA 3)), 4, [300, 600, 1200])) ∧
    (∀ st e, outA 0 = .response true st (.error e) →
      fetch_adoptium_assets_with_retry outA =
        (.error ("Failed to parse assets response: " ++ e), 1, [])) := by
  refine ⟨?_, ?_, ?_, ?_⟩
  · intro h
    rcases retryable_cases _ (h 0 (by decide)) with ⟨st0, b0, e0⟩ | ⟨t0, e0⟩ <;>
      rcases retryable_cases _ (h 1 (by decide)) with ⟨st1, b1, e1⟩ | ⟨t1, e1⟩ <;>
      rcases retryable_cases _ (h 2 (by decide)) with ⟨st2, b2, e2⟩ | ⟨t2, e2⟩ <;>
      rcases retryable_cases _ (h 3 (by decide)) with ⟨st3, b3, e3⟩ | ⟨t3, e3⟩ <;>
      simp [fetch_available_releases_with_retry, fetchAvailableReleasesGo, e0, e1, e2, e3,
        releasesLastCauseMsg, CATALOG_REQUEST_RETRIES, CATALOG_RETRY_BASE_DELAY_MS]
  · intro st e h0
    simp [fetch_available_releases_with_retry, fetchAvailableReleasesGo, h0]
  · intro h
    rcases retryable_cases _ (h 0 (by decide)) with ⟨st0, b0, e0⟩ | ⟨t0, e0⟩ <;>
      rcases retryable_cases _ (h 1 (by decide)) with ⟨st1, b1, e1⟩ | ⟨t1, e1⟩ <;>
      rcases retryable_cases _ (h 2 (by decide)) with ⟨st2, b2, e2⟩ | ⟨t2, e2⟩ <;>
      rcases retryable_cases _ (h 3 (by decide)) with ⟨st3, b3, e3⟩ | ⟨t3, e3⟩ <;>
      simp [fetch_adoptium_assets_with_retry, fetchAssetsGo, e0, e1, e2, e3,
        assetsLastCauseMsg, CATALOG_REQUEST_RETRIES, CATALOG_RETRY_BASE_DELAY_MS]
  · intro st e h0
    simp [fetch_adoptium_assets_with_retry, fetchAssetsGo, h0]

theorem c5_witness :
    fetch_available_releases_with_retry (fun _ => .transportError "boom") =
      (.error (.NetworkError "Failed to fetch available releases: boom"), 4,
        [300, 600, 1200]) ∧
    fetch_adoptium_assets_with_retry (α := AvailableReleases)
      (fun _ => .response false "503 Service Unavailable" (.error "x")) =
      (.error "HTTP status 503 Service Unavailable", 4, [300, 600, 1200]) :=
  ⟨(c5_retry_policy (fun _ => .transportError "boom")
      (fun _ => HttpOutcome.transportError (α := AvailableReleases) "y")).1
      (fun _ _ => rfl),
   (c5_retry_policy (fun _ => .transportError "boom")
      (fun _ => .response false "503 Service Unavailable" (.error "x"))).2.2.1
      (fun _ _ => rfl)⟩

/-- C8: the cache read returns `None` for a missing file or a stale catalog
(`now − cached_at ≥ 86400` s), so any catalog it returns satisfies
`now − cached_at < 86400` (as integers). -/
theorem c8_cache_freshness (file : CacheFile) (now : Nat) (hnow : now < mask64) :
    (∀ c, c.cached_at < mask64 → load_cached_catalog_result file now = .ok (some c) →
      (now : ℤ) - (c.cached_at : ℤ) < 86400) ∧
    load_cached_catalog_result .missing now = .ok none ∧
    (∀ c, file = .content (.ok c) → c.cached_at < mask64 →
      c.cached_at + 86400 ≤ now → load_cached_catalog_result file now = .ok none) := by
  refine ⟨?_, rfl, ?_⟩
  · intro c hc hload
    cases file with
    | missing => simp [load_cached_catalog_result] at hload
    | readError e => simp [load_cached_catalog_result] at hload
    | content p =>
      cases p with
      | error e => simp [load_cached_catalog_result] at hload
      | ok catalog =>
        simp only [load_cached_catalog_result] at hload
        split at hload
        · next hfresh =>
          have : catalog = c := by
            simpa using hload
          subst this
          simp only [u64sub, CACHE_DURATION_SECS, mask64] at hfresh hc hnow ⊢
          omega
        · simp at hload
  · intro c heq hc hstale
    subst heq
    simp only [load_cached_catalog_result]
    rw [if_neg]
    simp only [u64sub, CACHE_DURATION_SECS, mask64] at hc hnow ⊢
    omega

theorem c8_cache_freshness_witness :
    (100 : ℤ) - ((0 : Nat) : ℤ) < 86400 :=
  (c8_cache_freshness (.content (.ok ⟨[], [], [], 0⟩)) 100 (by decide)).1
    ⟨[], [], [], 0⟩ (by decide) rfl

end DropOut
namespace DropOut

/-- Invariant of the `resume_pending_downloads_with` loop: the call trace
extends by one triple per entry and every entry lands in exactly one of the
two outcome lists. -/
theorem resumeGo_spec (env : ResumeEnv) :
    ∀ (l : List PendingJavaDownload) installed failed calls,
      (resumeGo env l installed failed calls).2.2 =
        calls.reverse ++ l.map (fun p =>
          (p.major_version, (ImageType.parse p.image_type).getD .Jre, p.install_path)) ∧
      (resumeGo env l installed failed calls).1.length +
        (resumeGo env l installed failed calls).2.1.length =
        installed.length + failed.length + l.length := by
  intro l
  induction l with
  | nil => intro installed failed calls; simp [resumeGo]
  | cons p rest ih =>
    intro installed failed calls
    simp only [resumeGo]
    cases env.install p.major_version ((ImageType.parse p.image_type).getD .Jre)
        p.install_path with
    | ok inst =>
      have h := ih (inst :: installed) failed
        ((p.major_version, (ImageType.parse p.image_type).getD .Jre, p.install_path) :: calls)
      refine ⟨?_, ?_⟩
      · rw [h.1]; simp
      · rw [h.2]; simp only [List.length_cons]; omega
    | error e =>
      have h := ih installed
        ({ major_version := p.major_version, image_type := p.image_type,
           install_path := p.install_path,
           reason := ResumeJavaDownloadFailureReason.from_error_message e,
           error := e } :: failed)
        ((p.major_version, (ImageType.parse p.image_type).getD .Jre, p.install_path) :: calls)
      refine ⟨?_, ?_⟩
      · rw [h.1]; simp
      · rw [h.2]; simp only [List.length_cons]; omega

/-- C10: `resume_pending_downloads_with` processes every pending entry —
the install call trace covers all entries with the image type defaulting
to JRE when the stored string parses to neither "jre" nor "jdk" — and no
entry is skipped or fails the call. -/
theorem c10_resume_never_rejects (env : ResumeEnv) :
    (resume_pending_downloads_with env).2 =
      env.pending.map (fun p =>
        (p.major_version, (ImageType.parse p.image_type).getD .Jre, p.install_path)) ∧
    (resume_pending_downloads_with env).1.total_pending = env.pending.length ∧
    (resume_pending_downloads_with env).1.successful_installations.length +
      (resume_pending_downloads_with env).1.failed_downloads.length =
      env.pending.length ∧
    (∀ p ∈ env.pending, ImageType.parse p.image_type = none →
      (p.major_version, ImageType.Jre, p.install_path) ∈
        (resume_pending_downloads_with env).2) := by
  have h := resumeGo_spec env env.pending [] [] []
  refine ⟨?_, rfl, ?_, ?_⟩
  · simpa [resume_pending_downloads_with] using h.1
  · simpa [resume_pending_downloads_with] using h.2
  · intro p hp hparse
    have h1 : (resume_pending_downloads_with env).2 =
        env.pending.map (fun p =>
          (p.major_version, (ImageType.parse p.image_type).getD .Jre, p.install_path)) := by
      simpa [resume_pending_downloads_with] using h.1
    rw [h1]
    have : (p.major_version, ImageType.Jre, p.install_path) =
        (p.major_version, (ImageType.parse p.image_type).getD .Jre, p.install_path) := by
      rw [hparse]; rfl
    rw [this]
    exact List.mem_map_of_mem _ hp

theorem c10_resume_witness :
    (17, ImageType.Jre, "/data") ∈
      (resume_pending_downloads_with
        { pending := [{ major_version := 17, image_type := "weird",
                        download_url := "u", file_name := "f", file_size := 0,
                        checksum := none, install_path := "/data", created_at := 0 }],
          install := fun _ _ _ => .error "x" }).2 :=
  (c10_resume_never_rejects _).2.2.2
    { major_version := 17, image_type := "weird", download_url := "u",
      file_name := "f", file_size := 0, checksum := none,
      install_path := "/data", created_at := 0 }
    (by simp) rfl

end DropOut
namespace DropOut

theorem sanitize_go_ok (ep : List PathComponent) :
    ∀ (p : List PathComponent) (acc : List String) (sp : List String),
      sanitize_relative_path.go ep p acc = .ok sp →
      sp = acc.reverse ++ filterNormals p := by
  intro p
  induction p with
  | nil =>
    intro acc sp h
    simp [sanitize_relative_path.go] at h
    simp [filterNormals, ← h]
  | cons c rest ih =>
    intro acc sp h
    cases c with
    | normal s =>
      have := ih (s :: acc) sp h
      simp [filterNormals, this]
    | curDir => simpa [filterNormals] using ih acc sp h
    | parentDir => simp [sanitize_relative_path.go] at h
    | rootDir => simp [sanitize_relative_path.go] at h
    | prefixed s => simp [sanitize_relative_path.go] at h

theorem mem_filterNormals :
    ∀ (p : List PathComponent) (s : String), s ∈ filterNormals p →
      PathComponent.normal s ∈ p := by
  intro p
  induction p with
  | nil => intro s h; simp [filterNormals] at h
  | cons c rest ih =>
    intro s h
    cases c with
    | normal t =>
      simp only [filterNormals, List.mem_cons] at h
      rcases h with h | h
      · subst h; exact List.mem_cons_self _ _
      · exact List.mem_cons_of_mem _ (ih s h)
    | curDir => exact List.mem_cons_of_mem _ (ih s (by simpa [filterNormals] using h))
    | parentDir => exact List.mem_cons_of_mem _ (ih s (by simpa [filterNormals] using h))
    | rootDir => exact List.mem_cons_of_mem _ (ih s (by simpa [filterNormals] using h))
    | prefixed t => exact List.mem_cons_of_mem _ (ih s (by simpa [filterNormals] using h))

end DropOut
namespace DropOut

theorem sanitize_ok_eq (p : List PathComponent) (sp : List String)
    (h : sanitize_relative_path p = .ok sp) : sp = filterNormals p := by
  simp only [sanitize_relative_path] at h
  simpa using sanitize_go_ok p p [] sp h

theorem tarGo_some (d : String) :
    ∀ (entries : List TarEntry) (created : List (List String)),
      (∀ e ∈ entries, tarEntryOkB e = true) →
      (extractTarGo entries (some d) created).1 = .ok d := by
  intro entries
  induction entries with
  | nil => intro created _; rfl
  | cons e rest ih =>
    intro created hok
    have he := hok e (List.mem_cons_self _ _)
    simp only [tarEntryOkB, Bool.and_eq_true, Option.isNone_iff_eq_none] at he
    obtain ⟨hre, hse⟩ := he
    obtain ⟨sp, hsp⟩ : ∃ sp, sanitize_relative_path e.path = .ok sp := by
      cases hs : sanitize_relative_path e.path with
      | ok v => exact ⟨v, rfl⟩
      | error m => rw [hs] at hse; simp [exceptIsOk] at hse
    have hrest : ∀ e2 ∈ rest, tarEntryOkB e2 = true :=
      fun e2 h2 => hok e2 (List.mem_cons_of_mem _ h2)
    simp only [extractTarGo, hre, hsp]
    cases hsp2 : sp.isEmpty with
    | true => simpa [hsp2] using ih created hrest
    | false => simpa [hsp2] using ih (sp :: created) hrest

theorem tarGo_none :
    ∀ (entries : List TarEntry) (created : List (List String)),
      (∀ e ∈ entries, tarEntryOkB e = true) →
      (∀ e ∈ entries, e.path.all normalOkB = true) →
      (extractTarGo entries none created).1 =
        match firstTopComponent entries with
        | some c => .ok c
        | none => .error "Archive appears to be empty" := by
  intro entries
  induction entries with
  | nil => intro created _ _; rfl
  | cons e rest ih =>
    intro created hok hwf
    have he := hok e (List.mem_cons_self _ _)
    simp only [tarEntryOkB, Bool.and_eq_true, Option.isNone_iff_eq_none] at he
    obtain ⟨hre, hse⟩ := he
    obtain ⟨sp, hsp⟩ : ∃ sp, sanitize_relative_path e.path = .ok sp := by
      cases hs : sanitize_relative_path e.path with
      | ok v => exact ⟨v, rfl⟩
      | error m => rw [hs] at hse; simp [exceptIsOk] at hse
    have hrest : ∀ e2 ∈ rest, tarEntryOkB e2 = true :=
      fun e2 h2 => hok e2 (List.mem_cons_of_mem _ h2)
    have hwrest : ∀ e2 ∈ rest, e2.path.all normalOkB = true :=
      fun e2 h2 => hwf e2 (List.mem_cons_of_mem _ h2)
    cases sp with
    | nil =>
      have hft : firstTopComponent (e :: rest) = firstTopComponent rest := by
        simp [firstTopComponent, List.findSome?, hsp]
      rw [hft]
      simp only [extractTarGo, hre, hsp, List.isEmpty_nil]
      exact ih created hrest hwrest
    | cons c t =>
      have hcnorm : PathComponent.normal c ∈ e.path := by
        have : c ∈ filterNormals e.path := by
          rw [← sanitize_ok_eq e.path (c :: t) hsp]
          exact List.mem_cons_self _ _
        exact mem_filterNormals e.path c this
      have hcok : normalOkB (PathComponent.normal c) = true := by
        have := hwf e (List.mem_cons_self _ _)
        rw [List.all_eq_true] at this
        exact this _ hcnorm
      have hc1 : c ≠ "" := by
        simp only [normalOkB, Bool.and_eq_true, Bool.not_eq_true', beq_eq_false_iff_ne,
          ne_eq] at hcok
        exact hcok.1
      have hc2 : c ≠ "." := by
        simp only [normalOkB, Bool.and_eq_true, Bool.not_eq_true', beq_eq_false_iff_ne,
          ne_eq] at hcok
        exact hcok.2
      have hft : firstTopComponent (e :: rest) = some c := by
        simp [firstTopComponent, List.findSome?, hsp]
      rw [hft]
      simp only [extractTarGo, hre, hsp, List.isEmpty_cons, List.head?_cons]
      simpa [hc1, hc2] using tarGo_some c rest ((c :: t) :: created) hrest

/-- C9: `extract_tar_gz` returns the first path component of the first
non-empty sanitized entry as the top-level directory, and fails when no
entry yields one. -/
theorem c9_tar_top_level (entries : List TarEntry)
    (hok : ∀ e ∈ entries, tarEntryOkB e = true)
    (hwf : ∀ e ∈ entries, e.path.all normalOkB = true) :
    (extract_tar_gz entries).1 =
      match firstTopComponent entries with
      | some c => .ok c
      | none => .error "Archive appears to be empty" :=
  tarGo_none entries [] hok hwf

theorem c9_tar_top_level_witness :
    (extract_tar_gz
      [{ readError := none,
         path := [PathComponent.normal "jdk-21", PathComponent.normal "bin"],
         isDir := true }]).1 = .ok "jdk-21" ∧
    (extract_tar_gz ([] : List TarEntry)).1 = .error "Archive appears to be empty" :=
  ⟨c9_tar_top_level _ (by decide) (by decide),
   c9_tar_top_level [] (by decide) (by decide)⟩

end DropOut
namespace DropOut

theorem sanitize_go_unsafe (ep : List PathComponent) :
    ∀ (p : List PathComponent) (acc : List String),
      unsafeComponents p = true →
      ∃ msg, sanitize_relative_path.go ep p acc = .error msg := by
  intro p
  induction p with
  | nil => intro acc h; simp [unsafeComponents] at h
  | cons c rest ih =>
    intro acc h
    cases c with
    | normal s =>
      have : unsafeComponents rest = true := by
        simpa [unsafeComponents] using h
      exact ih (s :: acc) this
    | curDir =>
      have : unsafeComponents rest = true := by
        simpa [unsafeComponents] using h
      exact ih acc this
    | parentDir => exact ⟨_, rfl⟩
    | rootDir => exact ⟨_, rfl⟩
    | prefixed s => exact ⟨_, rfl⟩

theorem sanitize_unsafe (p : List PathComponent)
    (h : unsafeComponents p = true) :
    ∃ msg, sanitize_relative_path p = .error msg := by
  simpa [sanitize_relative_path] using sanitize_go_unsafe p p [] h

theorem tarGo_unsafe :
    ∀ (entries : List TarEntry) (top : Option String) (created : List (List String)),
      (∃ e ∈ entries, unsafeComponents e.path = true) →
      ∃ msg, (extractTarGo entries top created).1 = .error msg := by
  intro entries
  induction entries with
  | nil => intro top created h; simp at h
  | cons e rest ih =>
    intro top created h
    cases hre : e.readError with
    | some err =>
      exact ⟨"Failed to read tar entry: " ++ err, by simp [extractTarGo, hre]⟩
    | none =>
      cases hs : sanitize_relative_path e.path with
      | error m => exact ⟨m, by simp [extractTarGo, hre, hs]⟩
      | ok sp =>
        have hrest : ∃ e2 ∈ rest, unsafeComponents e2.path = true := by
          rcases h with ⟨e2, hmem, hu⟩
          rcases List.mem_cons.mp hmem with rfl | hmem2
          · rcases sanitize_unsafe e2.path hu with ⟨m, hm⟩
            rw [hm] at hs
            exact absurd hs (by simp)
          · exact ⟨e2, hmem2, hu⟩
        simp only [extractTarGo, hre, hs]
        cases hsp2 : sp.isEmpty with
        | true => simpa [hsp2] using ih top created hrest
        | false =>
          simpa [hsp2] using ih _ (sp :: created) hrest

theorem enclosed_resolve :
    ∀ (comps : List PathComponent) (d : Nat) (acc : List String),
      enclosedDepthOk comps d = true → acc.length = d →
      ∃ r, resolveComponents comps acc = some r := by
  intro comps
  induction comps with
  | nil => intro d acc _ _; exact ⟨acc.reverse, rfl⟩
  | cons c rest ih =>
    intro d acc h hlen
    cases c with
    | normal s =>
      have : enclosedDepthOk rest (d + 1) = true := by simpa [enclosedDepthOk] using h
      exact ih (d + 1) (s :: acc) this (by simp [hlen])
    | curDir =>
      have : enclosedDepthOk rest d = true := by simpa [enclosedDepthOk] using h
      exact ih d acc this hlen
    | parentDir =>
      cases d with
      | zero => simp [enclosedDepthOk] at h
      | succ d2 =>
        have hd : enclosedDepthOk rest d2 = true := by simpa [enclosedDepthOk] using h
        cases acc with
        | nil => simp at hlen
        | cons a t =>
          have : t.length = d2 := by simpa using hlen
          simpa [resolveComponents] using ih d2 t hd this
    | rootDir => simp [enclosedDepthOk] at h
    | prefixed s => simp [enclosedDepthOk] at h

theorem enclosed_name_some (raw : String) (comps q : List PathComponent)
    (h : enclosed_name raw comps = some q) :
    q = comps ∧ enclosedDepthOk comps 0 = true := by
  simp only [enclosed_name] at h
  split at h
  · exact absurd h (by simp)
  · split at h
    · next hd => exact ⟨by simpa using h.symm, hd⟩
    · exact absurd h (by simp)

theorem zipGo_created (extractTo : String) :
    ∀ (entries : List ZipEntry) (created : List (List PathComponent)),
      (∀ p ∈ created, ∃ r, resolveComponents p [] = some r) →
      ∀ p ∈ (extractZipGo extractTo entries created).2,
        ∃ r, resolveComponents p [] = some r := by
  intro entries
  induction entries with
  | nil =>
    intro created hc p hp
    simp only [extractZipGo, List.mem_reverse] at hp
    exact hc p hp
  | cons e rest ih =>
    intro created hc p hp
    cases hre : e.readError with
    | some err =>
      simp only [extractZipGo, hre, List.mem_reverse] at hp
      exact hc p hp
    | none =>
      cases hen : enclosed_name e.rawName e.path with
      | none =>
        simp only [extractZipGo, hre, hen] at hp
        exact ih created hc p hp
      | some q =>
        simp only [extractZipGo, hre, hen] at hp
        by_cases hmi : strContains (extractTo ++ "/" ++ renderPath q) "META-INF" = true
        · rw [if_pos hmi] at hp
          exact ih created hc p hp
        · rw [if_neg hmi] at hp
          refine ih (q :: created) ?_ p hp
          intro p2 hp2
          rcases List.mem_cons.mp hp2 with rfl | hp3
          · obtain ⟨hq, hdep⟩ := enclosed_name_some e.rawName e.path p2 hen
            exact enclosed_resolve p2 0 [] (hq ▸ hdep) rfl
          · exact hc p2 hp3

theorem allNormal_resolve :
    ∀ (l : List String) (acc : List String),
      resolveComponents (l.map PathComponent.normal) acc = some (acc.reverse ++ l) := by
  intro l
  induction l with
  | nil => intro acc; simp [resolveComponents]
  | cons s rest ih =>
    intro acc
    simpa [resolveComponents] using ih (s :: acc)

theorem tarGo_created :
    ∀ (entries : List TarEntry) (top : Option String) (created : List (List String)),
      (∀ p ∈ created, resolveComponents (p.map PathComponent.normal) [] = some p) →
      ∀ p ∈ (extractTarGo entries top created).2,
        resolveComponents (p.map PathComponent.normal) [] = some p := by
  intro entries
  induction entries with
  | nil =>
    intro top created hc p hp
    simp only [extractTarGo, List.mem_reverse] at hp
    exact hc p hp
  | cons e rest ih =>
    intro top created hc p hp
    cases hre : e.readError with
    | some err =>
      simp only [extractTarGo, hre, List.mem_reverse] at hp
      exact hc p hp
    | none =>
      cases hs : sanitize_relative_path e.path with
      | error m =>
        simp only [extractTarGo, hre, hs, List.mem_reverse] at hp
        exact hc p hp
      | ok sp =>
        simp only [extractTarGo, hre, hs] at hp
        cases hsp2 : sp.isEmpty with
        | true =>
          rw [hsp2] at hp
          simp only [if_true] at hp
          exact ih top created hc p hp
        | false =>
          rw [hsp2] at hp
          simp only [Bool.false_eq_true, if_false] at hp
          refine ih _ (sp :: created) ?_ p hp
          intro p2 hp2
          rcases List.mem_cons.mp hp2 with rfl | hp3
          · simpa using allNormal_resolve p2 []
          · exact hc p2 hp3

end DropOut
namespace DropOut

/-- C1 counterexample: a zip archive whose only entry is `../evil.sh`
makes `extract_zip` return success (`Ok`), silently skipping the entry
rather than failing — refuting the claim that both entry points fail. -/
theorem c1_counterexample :
    extract_zip "out"
      [{ readError := none, rawName := "../evil.sh",
         path := [PathComponent.parentDir, PathComponent.normal "evil.sh"] }] =
      (.ok (), []) ∧
    unsafeComponents [PathComponent.parentDir, PathComponent.normal "evil.sh"] =
      true := by
  constructor
  · rfl
  · rfl

/-- C1 amended: `extract_tar_gz` fails with an error on any archive
containing an entry with a parent-directory or absolute-root component,
while `extract_zip` silently skips entries rejected by `enclosed_name`
(the `continue` branch); in both extractors every written path resolves
lexically inside the extraction root. -/
theorem c1_amended (extractTo : String) (zentries : List ZipEntry)
    (tentries : List TarEntry) :
    ((∃ e ∈ tentries, unsafeComponents e.path = true) →
      ∃ msg, (extract_tar_gz tentries).1 = .error msg) ∧
    (∀ (e : ZipEntry) (rest : List ZipEntry), e.readError = none →
      enclosed_name e.rawName e.path = none →
      extract_zip extractTo (e :: rest) = extract_zip extractTo rest) ∧
    (∀ p ∈ (extract_zip extractTo zentries).2,
      ∃ r, resolveComponents p [] = some r) ∧
    (∀ p ∈ (extract_tar_gz tentries).2,
      resolveComponents (p.map PathComponent.normal) [] = some p) := by
  refine ⟨?_, ?_, ?_, ?_⟩
  · intro h
    exact tarGo_unsafe tentries none [] h
  · intro e rest hre hen
    simp [extract_zip, extractZipGo, hre, hen]
  · intro p hp
    exact zipGo_created extractTo zentries [] (by simp) p hp
  · intro p hp
    exact tarGo_created tentries none [] (by simp) p hp

theorem c1_amended_witness :
    ∃ msg,
      (extract_tar_gz
        [{ readError := none,
           path := [PathComponent.parentDir, PathComponent.normal "evil.sh"],
           isDir := false }]).1 = .error msg :=
  (c1_amended "out" []
      [{ readError := none,
         path := [PathComponent.parentDir, PathComponent.normal "evil.sh"],
         isDir := false }]).1
    ⟨{ readError := none,
       path := [PathComponent.parentDir, PathComponent.normal "evil.sh"],
       isDir := false }, by decide, by decide⟩

end DropOut
namespace DropOut

theorem queueContains_remove (q : List PendingJavaDownload) (major : Nat)
    (it : String) : queueContains (queueRemove q major it) major it = false := by
  induction q with
  | nil => rfl
  | cons x t ih =>
    show queueContains (List.filter _ (x :: t)) major it = false
    rw [List.filter_cons]
    cases hx : (x.major_version == major && x.image_type == it) with
    | true =>
      simp only [hx, Bool.not_true, Bool.false_eq_true, if_false]
      exact ih
    | false =>
      simp only [hx, Bool.not_false, if_true]
      show (List.any _ _) = false
      rw [List.any_cons]
      simp only [hx, Bool.false_or]
      exact ih

theorem queueContains_add (q : List PendingJavaDownload)
    (e : PendingJavaDownload) :
    queueContains (queueAdd q e) e.major_version e.image_type = true := by
  simp [queueAdd, queueContains, List.any_append]

theorem installRest_shape (env : InstallEnv) (major : Nat) (it : ImageType)
    (info : JavaDownloadInfo) (q1 : List PendingJavaDownload) :
    (∃ inst, env.checkJava = some inst ∧ env.saveAfterRemove = Except.ok () ∧
      installRest env major it info q1 = (.ok inst, queueRemove q1 major it.toStr)) ∨
    ∃ msg, installRest env major it info q1 = (.error msg, q1) := by
  unfold installRest
  repeat' split
  all_goals
    first
      | exact Or.inr ⟨_, rfl⟩
      | exact Or.inl ⟨_, ‹_›, ‹_›, rfl⟩

end DropOut
namespace DropOut

/-- C7: the pending-queue entry registered at the start of
`download_and_install` is removed exactly when post-install validation
succeeds. -/
theorem c7_queue_lifecycle (env : InstallEnv) (major : Nat) (it : ImageType) :
    (∀ inst, (download_and_install env major it).1 = .ok inst →
      env.checkJava = some inst ∧
      queueContains (download_and_install env major it).2 major it.toStr = false) ∧
    (env.checkJava = none →
      ∀ inst, (download_and_install env major it).1 ≠ .ok inst) ∧
    (∀ info, env.fetchRelease = .ok info → env.createInstallBase = .ok () →
      env.saveAfterAdd = .ok () →
      (∀ inst, (download_and_install env major it).1 ≠ .ok inst) →
      queueContains (download_and_install env major it).2 major it.toStr = true) := by
  refine ⟨?_, ?_, ?_⟩
  · intro inst h
    cases hf : env.fetchRelease with
    | error e => simp [download_and_install, hf] at h
    | ok info =>
      cases hc : env.createInstallBase with
      | error e => simp [download_and_install, hf, hc] at h
      | ok u =>
        cases hs : env.saveAfterAdd with
        | error e => simp [download_and_install, hf, hc, hs] at h
        | ok u2 =>
          have hd : download_and_install env major it =
              installRest env major it info
                (queueAdd env.initialQueue (mkPendingEntry env major it info)) := by
            simp [download_and_install, hf, hc, hs]
          rcases installRest_shape env major it info
              (queueAdd env.initialQueue (mkPendingEntry env major it info)) with
            ⟨inst2, hcheck, _, heq⟩ | ⟨msg, heq⟩
          · rw [hd, heq] at h
            simp only [Except.ok.injEq] at h
            subst h
            rw [hd, heq]
            exact ⟨hcheck, queueContains_remove _ _ _⟩
          · rw [hd, heq] at h
            simp at h
  · intro hnone inst h
    cases hf : env.fetchRelease with
    | error e => simp [download_and_install, hf] at h
    | ok info =>
      cases hc : env.createInstallBase with
      | error e => simp [download_and_install, hf, hc] at h
      | ok u =>
        cases hs : env.saveAfterAdd with
        | error e => simp [download_and_install, hf, hc, hs] at h
        | ok u2 =>
          have hd : download_and_install env major it =
              installRest env major it info
                (queueAdd env.initialQueue (mkPendingEntry env major it info)) := by
            simp [download_and_install, hf, hc, hs]
          rcases installRest_shape env major it info
              (queueAdd env.initialQueue (mkPendingEntry env major it info)) with
            ⟨inst2, hcheck, _, heq⟩ | ⟨msg, heq⟩
          · rw [hnone] at hcheck
            exact absurd hcheck (by simp)
          · rw [hd, heq] at h
            simp at h
  · intro info hf hc hs hfail
    have hd : download_and_install env major it =
        installRest env major it info
          (queueAdd env.initialQueue (mkPendingEntry env major it info)) := by
      simp [download_and_install, hf, hc, hs]
    rcases installRest_shape env major it info
        (queueAdd env.initialQueue (mkPendingEntry env major it info)) with
      ⟨inst2, hcheck, _, heq⟩ | ⟨msg, heq⟩
    · exact absurd (by rw [hd, heq]) (hfail inst2)
    · rw [hd, heq]
      exact queueContains_add env.initialQueue (mkPendingEntry env major it info)

theorem c7_queue_lifecycle_witness :
    ({ fetchRelease := .ok
         { version := "21.0.5", release_name := "jdk-21", download_url := "http://u",
           file_name := "f.tar.gz", file_size := 10, checksum := none,
           image_type := .Jre },
       installBase := "/base", createInstallBase := .ok (), initialQueue := [],
       saveAfterAdd := .ok (), saveAfterRemove := .ok (), archiveExists := false,
       readArchive := .ok [], downloadWithResume := .ok (),
       versionDirExists := false, removeVersionDir := .ok (),
       createVersionDir := .ok (), extractTarGzR := .ok "jdk-21",
       extractZipR := .ok (), findTopLevelDirR := .ok "jdk-21",
       javaBinExists := true, javaBinPath := "/bin/java",
       canonicalizeJavaBin := .ok "/bin/java",
       checkJava := some
         { path := "/bin/java", version := "21.0.5", arch := "x64",
           vendor := "temurin", source := "managed", is_64bit := true },
       now := 0 } : InstallEnv).checkJava = some
        { path := "/bin/java", version := "21.0.5", arch := "x64",
          vendor := "temurin", source := "managed", is_64bit := true } ∧
    queueContains
      (download_and_install
        { fetchRelease := .ok
            { version := "21.0.5", release_name := "jdk-21", download_url := "http://u",
              file_name := "f.tar.gz", file_size := 10, checksum := none,
              image_type := .Jre },
          installBase := "/base", createInstallBase := .ok (), initialQueue := [],
          saveAfterAdd := .ok (), saveAfterRemove := .ok (), archiveExists := false,
          readArchive := .ok [], downloadWithResume := .ok (),
          versionDirExists := false, removeVersionDir := .ok (),
          createVersionDir := .ok (), extractTarGzR := .ok "jdk-21",
          extractZipR := .ok (), findTopLevelDirR := .ok "jdk-21",
          javaBinExists := true, javaBinPath := "/bin/java",
          canonicalizeJavaBin := .ok "/bin/java",
          checkJava := some
            { path := "/bin/java", version := "21.0.5", arch := "x64",
              vendor := "temurin", source := "managed", is_64bit := true },
          now := 0 } 17 .Jre).2 17 (ImageType.Jre.toStr) = false :=
  (c7_queue_lifecycle _ 17 .Jre).1
    { path := "/bin/java", version := "21.0.5", arch := "x64",
      vendor := "temurin", source := "managed", is_64bit := true } rfl

end DropOut
